import Mathlib

/-!
Verification development for the `ap` (AI-friendly patch) engine, ap.py.

The Python source is shallowly embedded here.  Python `str` values are
modelled as `List Char` (Python string indices are character indices, which
coincide with list positions).  Stateful parts (the project directory, the
deferred write plan, the commit phase) are modelled by explicit state
passing over an association-list file system; `IOError` during the commit
phase is modelled by an explicit per-path oracle `writeOk`.

Modelling notes (deviations are listed once, here):
* error reports are abstracted to their `code` field (an `ErrCode`);
  messages, fuzzy-match suggestions and other report context, plus the
  `afailed.log` / `afailed.ap` side files and all printing, are not
  modelled — no claim mentions them;
* the realpath-based path-traversal check is not modelled (all paths are
  treated as lying inside the project directory);
* `os.linesep` is taken to be the POSIX value, a single LF;
* `detect_line_endings` reads the first 1024 bytes; the model scans the
  first 1024 characters of the stored content.
-/

namespace AP

abbrev Str := List Char

/-- Characters stripped by Python `str.strip()` (ASCII whitespace). -/
def pyIsSpace (c : Char) : Bool :=
  c = ' ' || c = '\t' || c = '\n' || c = '\r' || c = '\x0b' || c = '\x0c'

/-- Python `s.strip()`. -/
def strip (s : Str) : Str :=
  ((s.dropWhile pyIsSpace).reverse.dropWhile pyIsSpace).reverse

/-- Python `not s.strip()`: the line is empty or whitespace-only. -/
def isBlank (s : Str) : Bool := (strip s).isEmpty

/-- Python `s.rstrip(' \t')` (line 646 of ap.py). -/
def rstripSpTab (s : Str) : Str :=
  (s.reverse.dropWhile (fun c => c = ' ' || c = '\t')).reverse

/-- Worker for `splitlinesKeep`; `acc` holds the current line reversed. -/
def splitAux : Str → Str → List Str
  | [], acc => if acc.isEmpty then [] else [acc.reverse]
  | c :: rest, acc =>
    if c = '\n' then (acc.reverse ++ ['\n']) :: splitAux rest []
    else splitAux rest (c :: acc)

/-- Python `s.splitlines(keepends=True)` for strings whose only line
terminator is LF (all strings fed to it in ap.py are normalised first). -/
def splitlinesKeep (s : Str) : List Str := splitAux s []

/-- Drop one trailing LF, used to turn a kept line into a bare line. -/
def chompNL (s : Str) : Str :=
  if s.getLast? = some '\n' then s.dropLast else s

/-- Python `s.splitlines()` (no keepends) for LF-only strings. -/
def splitlines (s : Str) : List Str := (splitlinesKeep s).map chompNL

/-- Worker for `splitNL`. -/
def splitNLAux : Str → Str → List Str
  | [], acc => [acc.reverse]
  | c :: rest, acc =>
    if c = '\n' then acc.reverse :: splitNLAux rest []
    else splitNLAux rest (c :: acc)

/-- Python `s.split('\n')`. -/
def splitNL (s : Str) : List Str := splitNLAux s []

/-- Python `'\n'.join(xs)`. -/
def joinNL : List Str → Str
  | [] => []
  | [l] => l
  | l :: l' :: rest => l ++ '\n' :: joinNL (l' :: rest)

/-- Python `sep.join(xs)`. -/
def joinWith (sep : Str) : List Str → Str
  | [] => []
  | [l] => l
  | l :: l' :: rest => l ++ sep ++ joinWith sep (l' :: rest)

/-- `s.replace('\r\n', '\n').replace('\r', '\n')` (one left-to-right pass
with one character of lookahead is equivalent to the two sequential
passes).  This is also exactly the translation performed by Python's
universal-newline file reads. -/
def normalizeNewlines : Str → Str
  | [] => []
  | [c] => if c = '\r' then ['\n'] else [c]
  | c1 :: c2 :: rest =>
    if c1 = '\r' then
      if c2 = '\n' then '\n' :: normalizeNewlines rest
      else '\n' :: normalizeNewlines (c2 :: rest)
    else c1 :: normalizeNewlines (c2 :: rest)

/-- Sum of the lengths of a list of strings: the offset of a line given
the list of lines before it. -/
def sumLen (ls : List Str) : Nat := ls.foldr (fun l acc => l.length + acc) 0

/-- Python slice `s[a:b]`. -/
def sliceN (s : Str) (a b : Nat) : Str := (s.take b).drop a

section SmartFind

/-- The `while` loop of `smart_find` (ap.py lines 216-222): walk forward
from the current line collecting non-blank lines until `need` of them have
been found; return the collected lines together with the number of lines
examined (so the last examined line is the one that completed the need).
`none` when the content runs out first (the code then fails its length
check, which is observationally the same). -/
def takeNonBlank : List Str → Nat → Option (List Str × Nat)
  | _, 0 => some ([], 0)
  | [], _ + 1 => none
  | l :: rest, n + 1 =>
    if isBlank l then
      match takeNonBlank rest (n + 1) with
      | some (found, k) => some (found, k + 1)
      | none => none
    else
      match takeNonBlank rest n with
      | some (found, k) => some (l :: found, k + 1)
      | none => none

/-- The hybrid comparison of ap.py lines 225-229: the first (stripped)
content line must end with the first (stripped) snippet line, the
remaining lines must be equal after stripping. -/
def headTailMatch (ncont nsnip : List Str) : Bool :=
  match ncont, nsnip with
  | c0 :: ct, s0 :: st => s0.isSuffixOf c0 && decide (ct = st)
  | _, _ => false

/-- One iteration of the `for i in range(...)` loop of `smart_find`:
the candidate match starting at content line `i`. -/
def checkAt (ls : List Str) (nsnip : List Str) (need : Nat) (i : Nat) :
    Option (Nat × Nat) :=
  match ls.drop i with
  | [] => none
  | l :: rest =>
    if isBlank l then none
    else
      match takeNonBlank (l :: rest) need with
      | none => none
      | some (found, k) =>
        if headTailMatch (found.map strip) nsnip then
          some (sumLen (ls.take i), sumLen (ls.take (i + k)))
        else none

/-- ap.py lines 208-233, `smart_find`. -/
def smart_find (content snippet : Str) : List (Nat × Nat) :=
  let ls := splitlinesKeep content
  let slines := (splitlines (strip snippet)).filter (fun l => !(isBlank l))
  if slines.isEmpty then []
  else (List.range ls.length).filterMap (checkAt ls (slines.map strip) slines.length)

/-- Length of the shortest prefix of `L` containing `need` non-blank
lines; `none` when `L` has fewer.  Used by the specification-side matcher
to say "the byte offset immediately past the last non-blank content line
consumed". -/
def nthNonBlankEnd : List Str → Nat → Option Nat
  | _, 0 => some 0
  | [], _ + 1 => none
  | l :: rest, n + 1 =>
    if isBlank l then (nthNonBlankEnd rest (n + 1)).map (· + 1)
    else (nthNonBlankEnd rest n).map (· + 1)

/-- Specification-side candidate match at content line `i`, following the
spec's words: the match begins at a non-blank content line; the snippet's
(blank-dropped, stripped) lines are compared against the subsequent
non-blank content lines, blank content lines being skipped transparently;
the first comparison is a stripped-suffix test and the remaining ones are
stripped equality; the reported range runs from the offset of line `i` to
the offset immediately past the last non-blank line consumed. -/
def specCheckAt (ls : List Str) (nsnip : List Str) (i : Nat) :
    Option (Nat × Nat) :=
  let L := ls.drop i
  match L.head? with
  | none => none
  | some l =>
    if isBlank l then none
    else
      match nthNonBlankEnd L nsnip.length with
      | none => none
      | some k =>
        let consumed := (L.filter (fun x => !(isBlank x))).take nsnip.length
        if headTailMatch (consumed.map strip) nsnip then
          some (sumLen (ls.take i), sumLen (ls.take (i + k)))
        else none

/-- Specification-side matcher: exactly the ranges described by the spec,
one candidate per starting line in increasing order. -/
def specMatches (content snippet : Str) : List (Nat × Nat) :=
  let ls := splitlinesKeep content
  let slines := (splitlines (strip snippet)).filter (fun l => !(isBlank l))
  if slines.isEmpty then []
  else (List.range ls.length).filterMap (specCheckAt ls (slines.map strip))

end SmartFind

instance {ε α : Type} [DecidableEq ε] [DecidableEq α] :
    DecidableEq (Except ε α) := fun x y =>
  match x, y with
  | .ok a, .ok b =>
    if h : a = b then .isTrue (by rw [h]) else .isFalse (by simp [h])
  | .error a, .error b =>
    if h : a = b then .isTrue (by rw [h]) else .isFalse (by simp [h])
  | .ok _, .error _ => .isFalse (by simp)
  | .error _, .ok _ => .isFalse (by simp)

/-- The error codes of ap.py, abstracting the `code` field of its error
reports. -/
inductive ErrCode where
  | INVALID_PATCH_FILE
  | INVALID_MODIFICATION
  | INVALID_FILE_PATH
  | FILE_NOT_FOUND
  | FILE_EXISTS
  | ANCHOR_NOT_FOUND
  | AMBIGUOUS_ANCHOR
  | SNIPPET_NOT_FOUND
  | END_SNIPPET_NOT_FOUND
  | AMBIGUOUS_MATCH
  | FILE_WRITE_ERROR
  | MODIFICATION_FAILED
  | ALL_CHANGES_FAILED
deriving DecidableEq, Repr

inductive Action where
  | REPLACE
  | INSERT_AFTER
  | INSERT_BEFORE
  | DELETE
  | CREATE_FILE
deriving DecidableEq, Repr

inductive NewlineMode where
  | LF
  | CRLF
  | CR
deriving DecidableEq, Repr

/-- One modification dictionary produced by the parser.  A missing key is
`none`; a key present with an empty value is `some []` (the distinction
matters: the code mixes `is not None` tests with truthiness tests).
`include_*_blank_lines` counts are used only through `count > 0`, so a
`Nat` is faithful. -/
structure Modification where
  action : Option Action := none
  snippet : Option Str := none
  anchor : Option Str := none
  content : Option Str := none
  end_snippet : Option Str := none
  include_leading_blank_lines : Nat := 0
  include_trailing_blank_lines : Nat := 0
deriving DecidableEq, Repr

structure FileChange where
  file_path : Option String := none
  newline : Option NewlineMode := none
  modifications : List Modification := []
deriving DecidableEq, Repr

structure PatchData where
  changes : List FileChange := []
deriving DecidableEq, Repr

/-- The project directory: path ↦ raw on-disk character content. -/
abbrev FS := List (String × Str)

/-- Writing a file (the commit-phase `open(...).write`). -/
def fsWrite (fs : FS) (p : String) (c : Str) : FS :=
  (p, c) :: fs.filter (fun e => e.1 ≠ p)

/-- Python truthiness of an optional string: `None` and `''` are falsy. -/
def truthyOpt (o : Option Str) : Prop := o.getD [] ≠ []

instance (o : Option Str) : Decidable (truthyOpt o) := by
  unfold truthyOpt; infer_instance

/-- ap.py line 608 (also lines 489-490 and 513-514): strip the whole
text, split into lines, strip each line, rejoin with LF. -/
def normalize_block (t : Str) : Str := joinNL ((splitlines (strip t)).map strip)

/-- `[l.strip() for l in (t or '').strip().splitlines() if l.strip()]`. -/
def stripNonBlankLines (t : Str) : List Str :=
  ((splitlines (strip t)).filter (fun l => !(isBlank l))).map strip

section Locator

/-- The snippet phase of `find_target_in_content` (ap.py lines 304-330):
search the chosen space, apply the snippet cursor filter, and translate
back to absolute coordinates.  Note there is no `cursor > 0` guard on this
filter. -/
def snippetPhase (snippet : Str) (cursor : Nat) (anchorTruthy : Bool)
    (ss : Str) (off : Nat) : Except ErrCode (Nat × Nat) :=
  let occ0 := smart_find ss snippet
  let occ1 :=
    if occ0.length > 1 then
      match occ0.filter (fun o => cursor ≤ o.1 + off) with
      | [] => occ0
      | f :: _ => [f]
    else occ0
  match occ1 with
  | [] => .error .SNIPPET_NOT_FOUND
  | o :: rest =>
    if rest ≠ [] ∧ !anchorTruthy then .error .AMBIGUOUS_MATCH
    else .ok (o.1 + off, o.2 + off)

/-- ap.py lines 235-330, `find_target_in_content` (the error dictionaries
are abstracted to their codes; `last_match_end` is `cursor`). -/
def find_target_in_content (content : Str) (anchor : Option Str)
    (snippet : Str) (cursor : Nat) : Except ErrCode (Nat × Nat) :=
  if truthyOpt anchor then
    let a := anchor.getD []
    let aocc0 := smart_find content a
    match aocc0 with
    | [] => .error .ANCHOR_NOT_FOUND
    | _ :: _ =>
      -- cursor filtering for anchors (this one is guarded by cursor > 0)
      let aocc1 :=
        if aocc0.length > 1 ∧ cursor > 0 then
          match aocc0.filter (fun o => cursor ≤ o.1) with
          | [] => aocc0
          | f :: fs => f :: fs
        else aocc0
      -- deep scope resolution
      let aocc2 :=
        if aocc1.length > 1 then
          let all_snip := smart_find content snippet
          let valid := aocc1.filter (fun ae =>
            match all_snip.filter (fun so => ae.2 ≤ so.1) with
            | [] => false
            | fsnip :: _ =>
              !(aocc1.any (fun o => ae.2 < o.1 ∧ o.1 < fsnip.1)))
          if valid.length = 1 then valid else aocc1
        else aocc1
      if aocc2.length > 1 then .error .AMBIGUOUS_ANCHOR
      else
        match aocc2 with
        | [] => .error .ANCHOR_NOT_FOUND  -- unreachable: aocc2 is nonempty
        | (aStart, aEnd) :: _ =>
          -- robust overlap detection
          let sLines := stripNonBlankLines snippet
          let aLines := stripNonBlankLines a
          let isOverlap :=
            sLines ≠ [] ∧ aLines ≠ [] ∧
              ((aLines.length ≤ sLines.length ∧ sLines.take aLines.length = aLines) ∨
               aLines.getLast? = sLines.head?)
          if isOverlap then snippetPhase snippet cursor true (content.drop aStart) aStart
          else snippetPhase snippet cursor true (content.drop aEnd) aEnd
  else snippetPhase snippet cursor false content 0

end Locator

section Mutator

/-- Python's clamping of a slice end index: a negative index counts from
the end of the string (and is clamped at 0). -/
def pyEndClamp (len : Nat) (e : Int) : Nat :=
  if e < 0 then ((len : Int) + e).toNat else min e.toNat len

/-- Python `s.rfind('\n', 0, e)` with Python's slice-end semantics. -/
def rfindNLIn (s : Str) (e : Int) : Option Nat :=
  match (s.take (pyEndClamp s.length e)).reverse.findIdx? (fun c => c = '\n') with
  | some j => some (pyEndClamp s.length e - 1 - j)
  | none => none

/-- Python `s.find('\n', pos)`. -/
def findNLFrom (s : Str) (pos : Nat) : Option Nat :=
  ((s.drop pos).findIdx? (fun c => c = '\n')).map (· + pos)

/-- ap.py lines 596-606 with `direction = -1`: walk `start_pos` backwards
over up to `fuel` entirely-blank lines. -/
def expandLead (working : Str) : Nat → Nat → Nat
  | 0, pos => pos
  | fuel + 1, pos =>
    match rfindNLIn working ((pos : Int) - 1) with
    | none => if isBlank (working.take pos) then 0 else pos
    | some nn =>
      if isBlank (sliceN working (nn + 1) pos) then expandLead working fuel (nn + 1)
      else pos

/-- ap.py lines 596-606 with `direction = 1`: walk `end_pos` forwards
over up to `fuel` entirely-blank lines. -/
def expandTrail (working : Str) : Nat → Nat → Nat
  | 0, pos => pos
  | fuel + 1, pos =>
    match findNLFrom working pos with
    | none => if isBlank (working.drop pos) then working.length else pos
    | some nn =>
      if isBlank (sliceN working pos nn) then expandTrail working fuel (nn + 1)
      else pos

/-- ap.py lines 618-635: the text actually spliced into the working
buffer for a REPLACE / INSERT_* with content — the detected indentation is
prepended to every line, and the trailing-newline discipline may append
one LF. -/
def indentedContent (working : Str) (s e : Nat) (content : Str)
    (act : Action) : Str :=
  if (act = .REPLACE ∨ act = .INSERT_AFTER ∨ act = .INSERT_BEFORE) ∧ content ≠ [] then
    let lineStart : Nat :=
      match rfindNLIn working (s : Int) with
      | none => 0
      | some nn => nn + 1
    let indentation := (sliceN working lineStart s).takeWhile (fun c => c = ' ' || c = '\t')
    let ic := joinNL ((splitNL content).map (fun l => indentation ++ l))
    let hadNL : Prop := s < e ∧ working.get? (e - 1) = some '\n'
    if (act = .INSERT_AFTER ∨ act = .INSERT_BEFORE ∨ (act = .REPLACE ∧ hadNL)) ∧
        content.getLast? ≠ some '\n' then
      ic ++ ['\n']
    else ic
  else content

/-- Outcome of the locating part of one modification (ap.py lines
507-558): a hard error returns immediately even under `--force`; a locator
error goes through the idempotency rescues / force handling; otherwise a
target range was resolved. -/
inductive LocOut where
  | hardErr (e : ErrCode)
  | locErr (e : ErrCode)
  | located (t : Nat × Nat)
deriving DecidableEq, Repr

/-- ap.py lines 507-558: the two end_snippet heuristics, then point or
range location. -/
def locateForMod (working : Str) (cursor : Nat) (act : Action)
    (mod : Modification) : LocOut :=
  let content_to_add := (mod.content).getD []
  let sv := mod.snippet
  -- heuristic: end_snippet identical (normalised) to content
  let es1 : Option Str :=
    match mod.end_snippet with
    | some es =>
      if truthyOpt sv ∧ es ≠ [] ∧ content_to_add ≠ [] ∧
          normalize_block es = normalize_block content_to_add then none
      else some es
    | none => none
  -- heuristic: end_snippet is a suffix of snippet (stripped)
  let es2 : Option Str :=
    match es1 with
    | some es =>
      if truthyOpt sv ∧ es ≠ [] ∧ (strip es).isSuffixOf (strip (sv.getD [])) then none
      else some es
    | none => none
  match es2 with
  | some es =>
    match sv with
    | none => .hardErr .INVALID_MODIFICATION
    | some svv =>
      if act = .REPLACE ∨ act = .DELETE then
        match find_target_in_content working mod.anchor svv cursor with
        | .error e => .locErr e
        | .ok (s1, e1) =>
          match smart_find (working.drop e1) es with
          | [] => .locErr .END_SNIPPET_NOT_FOUND
          | (_, er) :: _ => .located (s1, e1 + er)
      else .hardErr .INVALID_MODIFICATION
  | none =>
    match sv with
    | some svv =>
      match find_target_in_content working mod.anchor svv cursor with
      | .error e => .locErr e
      | .ok t => .located t
    | none => .hardErr .INVALID_MODIFICATION

/-- Result of processing one modification against the working buffer.
`stop` models the `break` of the CREATE_FILE branch; `next` carries the
new buffer, the new cursor (`last_mod_end_pos`), and — as ghost data for
stating cursor properties — the resolved start when line 590 ran. -/
inductive MStep where
  | err (e : ErrCode)
  | softErr (e : ErrCode)
  | stop (w : Str)
  | next (w : Str) (cursor : Nat) (resolved : Option Nat)
deriving DecidableEq, Repr

/-- ap.py lines 472-644: the body of the per-modification loop. -/
def processMod (fs : FS) (path : String) (working : Str) (cursor : Nat)
    (mod : Modification) : MStep :=
  match mod.action with
  | none => .err .INVALID_MODIFICATION
  | some act =>
    let content_to_add := (mod.content).getD []
    if act = .CREATE_FILE then
      -- safe CREATE_FILE, lines 484-505
      match fs.lookup path with
      | some raw =>
        let existing := normalizeNewlines raw
        if normalize_block existing = normalize_block content_to_add then
          .stop working  -- idempotency skip: break, buffer untouched
        else if isBlank existing then
          .stop (normalizeNewlines content_to_add)  -- overwrite empty file
        else .err .FILE_EXISTS
      | none => .stop (normalizeNewlines content_to_add)
    else
      match locateForMod working cursor act mod with
      | .hardErr e => .err e
      | .locErr e =>
        -- idempotency rescues, lines 560-569
        let rescuable :=
          e = .SNIPPET_NOT_FOUND ∨ e = .ANCHOR_NOT_FOUND ∨ e = .END_SNIPPET_NOT_FOUND
        if act = .DELETE ∧ rescuable then .next working cursor none
        else if act = .REPLACE ∧ rescuable ∧
            (find_target_in_content working mod.anchor content_to_add 0).isOk then
          .next working cursor none
        else .softErr e
      | .located (s0, e0) =>
        -- line 590: last_mod_end_pos := target start; then range expansion
        let s1 := expandLead working mod.include_leading_blank_lines s0
        let e1 := expandTrail working mod.include_trailing_blank_lines e0
        -- idempotency gates, lines 610-612
        if act = .REPLACE ∧
            normalize_block (sliceN working s1 e1) = normalize_block content_to_add then
          .next working s0 none
        else if act = .INSERT_AFTER ∧
            (normalize_block content_to_add).isPrefixOf (normalize_block (working.drop e1)) then
          .next working s0 none
        else if act = .INSERT_BEFORE ∧
            (normalize_block content_to_add).isSuffixOf (normalize_block (working.take s1)) then
          .next working s0 none
        else if act = .DELETE then
          .next (working.take s1 ++ working.drop e1) s0 (some s0)
        else
          let ic := indentedContent working s1 e1 content_to_add act
          let w' :=
            match act with
            | .REPLACE => working.take s1 ++ ic ++ working.drop e1
            | .INSERT_AFTER => working.take e1 ++ ic ++ working.drop e1
            | .INSERT_BEFORE => working.take s1 ++ ic ++ working.drop s1
            | _ => working
          .next w' s0 (some s0)

/-- The per-modification loop over one FileChange.  On success it returns
the final working buffer, whether any modification failed under force,
and the ghost trace of resolved start offsets in processing order. -/
def runMods (fs : FS) (path : String) (force : Bool) :
    Str → Nat → List Modification → Except ErrCode (Str × Bool × List Nat)
  | working, _, [] => .ok (working, false, [])
  | working, cursor, m :: rest =>
    match processMod fs path working cursor m with
    | .err e => .error e
    | .softErr e =>
      if force then
        match runMods fs path force working cursor rest with
        | .error e' => .error e'
        | .ok (w, _, tr) => .ok (w, true, tr)
      else .error e
    | .stop w => .ok (w, false, [])
    | .next w c r =>
      match runMods fs path force w c rest with
      | .error e' => .error e'
      | .ok (wf, fl, tr) =>
        .ok (wf, fl, match r with | some s => s :: tr | none => tr)

end Mutator

section FileDriver

/-- `os.linesep` on the assumed POSIX host. -/
def osLinesep : Str := ['\n']

/-- Does the string contain "\r\n"? (`b'\r\n' in chunk`). -/
def hasCRLF : Str → Bool
  | '\r' :: '\n' :: _ => true
  | _ :: rest => hasCRLF rest
  | [] => false

/-- ap.py lines 149-157, `detect_line_endings`, on the raw content of an
existing file: scan the first 1024 characters. -/
def detect_line_endings (raw : Str) : Str :=
  let chunk := raw.take 1024
  if hasCRLF chunk then ['\r', '\n']
  else if chunk.contains '\n' then ['\n']
  else if chunk.contains '\r' then ['\r']
  else osLinesep

/-- The newline string used to emit one FileChange (ap.py line 452). -/
def newlineCharOf (fs : FS) (path : String) (nl : Option NewlineMode) : Str :=
  match nl with
  | some .LF => ['\n']
  | some .CRLF => ['\r', '\n']
  | some .CR => ['\r']
  | none =>
    match fs.lookup path with
    | some raw => detect_line_endings raw
    | none => osLinesep

/-- ap.py lines 434-648: process one FileChange — read and normalise the
file, run the modifications, denormalise, and decide whether the file
enters the write plan.  Returns the optional write-plan entry and the
force-mode any-modification-failed flag. -/
def processChange (fs : FS) (force : Bool) (ch : FileChange) :
    Except ErrCode (Option (String × Str) × Bool) :=
  match ch.file_path with
  | none => .error .INVALID_PATCH_FILE  -- "Missing 'file_path' for a change block."
  | some path =>
    let nl := newlineCharOf fs path ch.newline
    let read : Except ErrCode (Str × Bool) :=
      match fs.lookup path with
      | some raw => .ok (normalizeNewlines raw, true)
      | none =>
        if ch.modifications.any (fun m => m.action = some .CREATE_FILE) then
          .ok ([], false)
        else .error .FILE_NOT_FOUND
    match read with
    | .error e => .error e
    | .ok (original, existed) =>
      match runMods fs path force (normalizeNewlines original) 0 ch.modifications with
      | .error e => .error e
      | .ok (wf, failed, _) =>
        let final := joinWith nl ((splitNL wf).map rstripSpTab)
        .ok (if final ≠ original ∨ existed = false then some (path, final) else none, failed)

/-- The planning phase of `apply_patch`: the loop over changes that builds
the write plan before anything is written. -/
def buildPlan (fs : FS) (force : Bool) :
    List FileChange → Except ErrCode (List (String × Str) × Bool)
  | [] => .ok ([], false)
  | ch :: rest =>
    match processChange fs force ch with
    | .error e => .error e
    | .ok (entry, fl) =>
      match buildPlan fs force rest with
      | .error e => .error e
      | .ok (plan, fl') => .ok (entry.toList ++ plan, fl || fl')

/-- ap.py lines 672-684: the commit phase.  Writes are attempted in plan
order; `writeOk` says whether the OS accepts a write to a given path; a
refused write raises `IOError`, reported as FILE_WRITE_ERROR, leaving
the files already written in their new state. -/
def commit (writeOk : String → Bool) : FS → List (String × Str) → Option ErrCode × FS
  | fs, [] => (none, fs)
  | fs, (p, c) :: rest =>
    if writeOk p then commit writeOk (fsWrite fs p c) rest
    else (some .FILE_WRITE_ERROR, fs)

inductive Status where
  | SUCCESS
  | FAILED (e : ErrCode)
deriving DecidableEq, Repr

/-- ap.py lines 332-689, `apply_patch`, starting from the parsed patch
data (the parser is modelled separately): build the write plan, apply the
force-mode checks of lines 650-670, then commit unless `dryRun`. -/
def apply_patch (data : PatchData) (fs : FS) (dryRun force : Bool)
    (writeOk : String → Bool) : Status × FS :=
  match buildPlan fs force data.changes with
  | .error e => (.FAILED e, fs)
  | .ok (plan, failed) =>
    if plan.isEmpty && failed then (.FAILED .MODIFICATION_FAILED, fs)
    else if force && failed && plan.isEmpty then (.FAILED .ALL_CHANGES_FAILED, fs)
    else if dryRun then (.SUCCESS, fs)
    else
      match commit writeOk fs plan with
      | (some e, fs') => (.FAILED e, fs')
      | (none, fs') => (.SUCCESS, fs')

/-- A write oracle under which every write succeeds. -/
def allWritesOk : String → Bool := fun _ => true

end FileDriver

section HeaderParser

/-- A character accepted inside the patch id by the header regex
`^([a-z0-9]{8})\s+AP\s+3\.0$` of ap.py line 39. -/
def isIdChar (c : Char) : Bool :=
  ('a' ≤ c && c ≤ 'z') || ('0' ≤ c && c ≤ '9')

/-- `header_pattern.match(stripped_line)` of ap.py lines 39 and 49,
over an already-stripped line: eight id characters, one or more
whitespace, `AP`, one or more whitespace, `3.0`, end of line. -/
def matchHeader (s : Str) : Option Str :=
  let idPart := s.take 8
  let rest := s.drop 8
  if idPart.length = 8 ∧ idPart.all isIdChar then
    let r1 := rest.dropWhile pyIsSpace
    if r1.length < rest.length ∧ r1.take 2 = "AP".data then
      let r2 := r1.drop 2
      let r3 := r2.dropWhile pyIsSpace
      if r3.length < r2.length ∧ r3 = "3.0".data then some idPart else none
    else none
  else none

inductive HeaderOutcome where
  | noHeader
  | okId (id : Str)
  | err (e : ErrCode)
deriving DecidableEq, Repr

/-- ap.py lines 44-53: scan for the header, skipping blank lines and
comment lines; the first other line must match the header pattern, else a
`ValueError` is raised, which `apply_patch` reports as
INVALID_PATCH_FILE (lines 416-418).  ap.py line 55: a patch with no
significant line at all parses to an empty change plan. -/
def parse_ap3_header : List Str → HeaderOutcome
  | [] => .noHeader
  | l :: rest =>
    let s := strip l
    if s.isEmpty || s.head? = some '#' then parse_ap3_header rest
    else
      match matchHeader s with
      | some id => .okId id
      | none => .err .INVALID_PATCH_FILE

/-- The first line that is neither blank nor a comment, stripped:
the line the spec says the header must appear on. -/
def firstSignificant (lines : List Str) : Option Str :=
  (lines.map strip).find? (fun s => !(s.isEmpty || s.head? = some '#'))

end HeaderParser

section SpecSideDefs

/-- Shorthand for a single-file, single-modification patch. -/
def onePatch (path : String) (m : Modification) : PatchData :=
  { changes := [{ file_path := some path, modifications := [m] }] }

/-- A CREATE_FILE modification with the given content. -/
def cfMod (c : Str) : Modification :=
  { action := some .CREATE_FILE, content := some c }

/-- Position `n` is the beginning of a line of `c`: it is 0 or the
character just before it is an LF. -/
def isLineStart (c : Str) (n : Nat) : Prop :=
  n = 0 ∨ (c.take n).getLast? = some '\n'

instance (c : Str) (n : Nat) : Decidable (isLineStart c n) := by
  unfold isLineStart; infer_instance

/-- The spec's "detected indentation": the contiguous run of space/tab
characters immediately preceding position `n` (the resolved start) on its
line — an LF is not a space/tab, so the run never crosses the line
boundary. -/
def precedingIndent (working : Str) (n : Nat) : Str :=
  (((working.take n).reverse).takeWhile (fun c => c = ' ' || c = '\t')).reverse

/-- The claim's "normalised comparison (blank lines dropped, each line
stripped)", rendered from its words: split into lines, drop the blank
ones, strip each remaining line, rejoin.  The code's comparison
(`normalize_block`, ap.py lines 489-490) differs: it keeps interior
blank lines. -/
def specNormalize (t : Str) : Str :=
  joinNL (((splitlines t).filter (fun l => !(isBlank l))).map strip)

/-- The claim's description of the spliced text: the content with the
detected indentation prepended to every line except the first, which is
left exactly as written. -/
def specSplice (working : Str) (n : Nat) (content : Str) : Str :=
  match splitNL content with
  | [] => []
  | h :: t => joinNL (h :: t.map (fun l => precedingIndent working n ++ l))

end SpecSideDefs

section Scenarios

example : smart_find "x=1\nx=1\n".data "x=1".data = [(0, 4), (4, 8)] := by decide

example : smart_find "a\nb\n".data "b".data = [(2, 4)] := by decide

example :
    smart_find "# START\nold1\nold2\n# END\n".data "# END".data = [(18, 24)] := by
  decide

example :
    smart_find "def f():\n\n  x = 1\n".data "def f():\n  x = 1".data = [(0, 18)] := by
  decide

example : specMatches "x=1\nx=1\n".data "x=1".data = [(0, 4), (4, 8)] := by decide

example :
    find_target_in_content "x=1\nx=1\n".data none "x=1".data 0 = .ok (0, 4) := by
  decide

example :
    find_target_in_content "x=1\nx=1\n".data none "x=1".data 4 = .ok (4, 8) := by
  decide

example :
    find_target_in_content "x=1\nx=1\n".data none "x=1".data 9 =
      .error .AMBIGUOUS_MATCH := by
  decide

example :
    find_target_in_content "def a():\n  x=1\ndef b():\n  x=1\n".data
      (some "def b():".data) "x=1".data 0 = .ok (24, 30) := by
  decide

-- S1: basic replace
example :
    apply_patch
      (onePatch "a.txt"
        { action := some .REPLACE, snippet := some "beta".data,
          content := some "BETA".data })
      [("a.txt", "alpha\nbeta\ngamma\n".data)] false false allWritesOk =
    (.SUCCESS, [("a.txt", "alpha\nBETA\ngamma\n".data)]) := by
  decide

-- S2 as the code actually behaves: first occurrence replaced, SUCCESS
example :
    apply_patch
      (onePatch "f.txt"
        { action := some .REPLACE, snippet := some "x=1".data,
          content := some "x=2".data })
      [("f.txt", "x=1\nx=1\n".data)] false false allWritesOk =
    (.SUCCESS, [("f.txt", "x=2\nx=1\n".data)]) := by
  decide

-- S4: CRLF preservation
example :
    apply_patch
      (onePatch "c.txt"
        { action := some .REPLACE, snippet := some "b".data,
          content := some "B".data })
      [("c.txt", "a\r\nb\r\n".data)] false false allWritesOk =
    (.SUCCESS, [("c.txt", "a\r\nB\r\n".data)]) := by
  decide

-- S7: range replace
example :
    apply_patch
      (onePatch "r.txt"
        { action := some .REPLACE, snippet := some "# START".data,
          end_snippet := some "# END".data, content := some "# NEW".data })
      [("r.txt", "# START\nold1\nold2\n# END\n".data)] false false allWritesOk =
    (.SUCCESS, [("r.txt", "# NEW\n".data)]) := by
  decide

-- second application of the S4 patch: SUCCESS, byte-identical, but the
-- CRLF file is re-listed in the write plan (final differs from the
-- newline-translated original)
example :
    buildPlan [("c.txt", "a\r\nB\r\n".data)] false
      (onePatch "c.txt"
        { action := some .REPLACE, snippet := some "b".data,
          content := some "B".data }).changes =
    .ok ([("c.txt", "a\r\nB\r\n".data)], false) := by
  decide

-- C2 trace: REPLACE with empty content succeeds once, fails on re-run
example :
    apply_patch
      (onePatch "t.txt" { action := some .REPLACE, snippet := some "x".data })
      [("t.txt", "a\nx\n".data)] false false allWritesOk =
    (.SUCCESS, [("t.txt", "a\n".data)]) := by
  decide

example :
    apply_patch
      (onePatch "t.txt" { action := some .REPLACE, snippet := some "x".data })
      [("t.txt", "a\n".data)] false false allWritesOk =
    (.FAILED .SNIPPET_NOT_FOUND, [("t.txt", "a\n".data)]) := by
  decide

-- C8 trace: idempotent CREATE_FILE on a file with trailing whitespace
-- rewrites the file with changed bytes
example :
    apply_patch
      (onePatch "t.txt" { action := some .CREATE_FILE, content := some "a".data })
      [("t.txt", "a \n".data)] false false allWritesOk =
    (.SUCCESS, [("t.txt", "a\n".data)]) := by
  decide

-- C1 trace: FILE_WRITE_ERROR on the second plan entry leaves the first
-- file already rewritten
example :
    apply_patch
      { changes :=
          [{ file_path := some "a.txt",
             modifications := [{ action := some .REPLACE, snippet := some "x".data,
                                 content := some "X".data }] },
           { file_path := some "b.txt",
             modifications := [{ action := some .REPLACE, snippet := some "y".data,
                                 content := some "Y".data }] }] }
      [("a.txt", "x\n".data), ("b.txt", "y\n".data)] false false
      (fun p => p == "a.txt") =
    (.FAILED .FILE_WRITE_ERROR, [("a.txt", "X\n".data), ("b.txt", "y\n".data)]) := by
  decide

-- blank-line expansion: DELETE of "b" absorbing one blank line on each side
example :
    apply_patch
      (onePatch "e.txt"
        { action := some .DELETE, snippet := some "b".data,
          include_leading_blank_lines := 1, include_trailing_blank_lines := 1 })
      [("e.txt", "a\n\nb\n\nc\n".data)] false false allWritesOk =
    (.SUCCESS, [("e.txt", "a\nc\n".data)]) := by
  decide

-- anchor cursor filter: with cursor 4 the second anchor is preferred
example :
    find_target_in_content "A\nx\nA\nx\n".data (some "A".data) "x".data 4 =
      .ok (6, 8) := by
  decide

-- deep-scope resolution: the ambiguous anchor whose scope holds the
-- snippet without a shadowing anchor in between wins
example :
    find_target_in_content "def a():\n  pass\ndef b():\n  pass\nCALL\n".data
      (some "pass".data) "CALL".data 0 = .ok (32, 37) := by
  decide

-- INSERT_AFTER idempotency gate: the second run is a no-op success
example :
    apply_patch
      (onePatch "i.txt"
        { action := some .INSERT_AFTER, snippet := some "a".data,
          content := some "b".data })
      [("i.txt", "a\n".data)] false false allWritesOk =
    (.SUCCESS, [("i.txt", "a\nb\n".data)]) := by
  decide

example :
    apply_patch
      (onePatch "i.txt"
        { action := some .INSERT_AFTER, snippet := some "a".data,
          content := some "b".data })
      [("i.txt", "a\nb\n".data)] false false allWritesOk =
    (.SUCCESS, [("i.txt", "a\nb\n".data)]) := by
  decide

-- C4 trace: a uniquely-matching snippet resolves before the cursor
example :
    runMods [("f.txt", "a\nb\n".data)] "f.txt" false "a\nb\n".data 0
      [{ action := some .REPLACE, snippet := some "b".data, content := some "B".data },
       { action := some .REPLACE, snippet := some "a".data, content := some "A".data }] =
    .ok ("A\nB\n".data, false, [2, 0]) := by
  decide

end Scenarios

section SmartFindProofs

/-- The walking loop of `smart_find` collects exactly the first `n`
non-blank lines, and the number of lines it examines is the length of the
shortest prefix containing them. -/
theorem takeNonBlank_eq (L : List Str) (n : Nat) :
    takeNonBlank L n =
      (nthNonBlankEnd L n).map
        (fun k => ((L.filter (fun x => !(isBlank x))).take n, k)) := by
  induction L generalizing n with
  | nil => cases n <;> simp [takeNonBlank, nthNonBlankEnd]
  | cons l rest ih =>
    cases n with
    | zero => simp [takeNonBlank, nthNonBlankEnd]
    | succ m =>
      by_cases hb : isBlank l
      · rw [show takeNonBlank (l :: rest) (m + 1) =
            (match takeNonBlank rest (m + 1) with
             | some (found, k) => some (found, k + 1)
             | none => none) from by simp [takeNonBlank, hb]]
        rw [ih]
        cases hk : nthNonBlankEnd rest (m + 1) <;>
          simp [nthNonBlankEnd, hb, hk, List.filter_cons]
      · rw [show takeNonBlank (l :: rest) (m + 1) =
            (match takeNonBlank rest m with
             | some (found, k) => some (l :: found, k + 1)
             | none => none) from by simp [takeNonBlank, hb]]
        rw [ih]
        cases hk : nthNonBlankEnd rest m <;>
          simp [nthNonBlankEnd, hb, hk, List.filter_cons]

/-- Per starting line, the code's candidate coincides with the
specification's candidate. -/
theorem checkAt_eq_spec (ls nsnip : List Str) (i : Nat) :
    checkAt ls nsnip nsnip.length i = specCheckAt ls nsnip i := by
  unfold checkAt specCheckAt
  cases h : ls.drop i with
  | nil => simp
  | cons l rest =>
    by_cases hb : isBlank l
    · simp [hb]
    · simp only [hb, if_false, List.head?]
      rw [takeNonBlank_eq]
      cases hk : nthNonBlankEnd (l :: rest) nsnip.length <;> simp [hk]

/-- `smart_find` returns exactly the matches described by the spec. -/
theorem smart_find_eq_specMatches (content snippet : Str) :
    smart_find content snippet = specMatches content snippet := by
  unfold smart_find specMatches
  by_cases hs :
      ((splitlines (strip snippet)).filter (fun l => !(isBlank l))).isEmpty
  · simp [hs]
  · simp only [hs, if_false]
    have hlen :
        ((splitlines (strip snippet)).filter (fun l => !(isBlank l))).length =
          (((splitlines (strip snippet)).filter (fun l => !(isBlank l))).map strip).length :=
      (List.length_map _ _).symm
    rw [hlen]
    have hfun :
        checkAt (splitlinesKeep content)
            (((splitlines (strip snippet)).filter (fun l => !(isBlank l))).map strip)
            ((((splitlines (strip snippet)).filter (fun l => !(isBlank l))).map strip).length) =
          specCheckAt (splitlinesKeep content)
            (((splitlines (strip snippet)).filter (fun l => !(isBlank l))).map strip) :=
      funext fun i => checkAt_eq_spec _ _ i
    rw [hfun]

end SmartFindProofs

section LineStartProofs

theorem sumLen_cons (l : Str) (t : List Str) :
    sumLen (l :: t) = l.length + sumLen t := rfl

/-- The kept lines concatenate back to the original string. -/
theorem splitAux_flatten (s : Str) : ∀ acc : Str,
    (splitAux s acc).flatten = acc.reverse ++ s := by
  induction s with
  | nil =>
    intro acc
    by_cases h : acc.isEmpty
    · simp [splitAux, h, List.isEmpty_iff.mp h]
    · simp [splitAux, h]
  | cons c rest ih =>
    intro acc
    by_cases h : c = '\n'
    · subst h; simp [splitAux, ih]
    · simp [splitAux, h, ih]

theorem splitlinesKeep_flatten (s : Str) : (splitlinesKeep s).flatten = s := by
  simpa using splitAux_flatten s []

/-- Every kept line other than the last ends with an LF. -/
theorem splitAux_nonlast_nl (s : Str) : ∀ (acc : Str) (j : Nat) (x : Str),
    (splitAux s acc)[j]? = some x → j + 1 < (splitAux s acc).length →
    x.getLast? = some '\n' := by
  induction s with
  | nil =>
    intro acc j x hx hj
    by_cases h : acc.isEmpty <;>
      · rw [show splitAux [] acc = if acc.isEmpty then [] else [acc.reverse] from
            rfl] at hj
        exact absurd hj (by simp [h])
  | cons c rest ih =>
    intro acc j x hx hj
    by_cases h : c = '\n'
    · subst h
      rw [show splitAux ('\n' :: rest) acc =
            (acc.reverse ++ ['\n']) :: splitAux rest [] from by
          simp [splitAux]] at hx hj
      cases j with
      | zero =>
        rw [List.getElem?_cons_zero, Option.some.injEq] at hx
        subst hx
        simp
      | succ j' =>
        rw [List.getElem?_cons_succ] at hx
        refine ih [] j' x hx ?_
        simp only [List.length_cons] at hj
        omega
    · rw [show splitAux (c :: rest) acc = splitAux rest (c :: acc) from by
          simp [splitAux, h]] at hx hj
      exact ih (c :: acc) j x hx hj

/-- Taking a whole number of lines off the flattened string gives the
flattening of those lines. -/
theorem flatten_take_sumLen (ls : List Str) : ∀ i : Nat,
    ls.flatten.take (sumLen (ls.take i)) = (ls.take i).flatten := by
  induction ls with
  | nil => intro i; simp [sumLen]
  | cons l rest ih =>
    intro i
    cases i with
    | zero => simp [sumLen]
    | succ j =>
      simp only [List.take_succ_cons, sumLen_cons, List.flatten_cons]
      rw [List.take_append, ih j]

/-- The first component of a `checkAt` hit is the offset of line `i`. -/
theorem checkAt_some_fst {ls ns : List Str} {n i : Nat} {p : Nat × Nat}
    (h : checkAt ls ns n i = some p) : p.1 = sumLen (ls.take i) := by
  unfold checkAt at h
  split at h
  · simp at h
  · split at h
    · simp at h
    · split at h
      · simp at h
      · split at h
        · rw [Option.some.injEq] at h
          rw [← h]
        · simp at h

/-- Every range reported by `smart_find` starts at the beginning of a
line of the content. -/
theorem smart_find_lineStart (content snippet : Str) (p : Nat × Nat)
    (hp : p ∈ smart_find content snippet) : isLineStart content p.1 := by
  unfold smart_find at hp
  by_cases hs :
      ((splitlines (strip snippet)).filter (fun l => !(isBlank l))).isEmpty
  · simp [hs] at hp
  · simp only [hs, Bool.false_eq_true, if_false] at hp
    rcases List.mem_filterMap.mp hp with ⟨i, hi, hchk⟩
    have h1 : p.1 = sumLen ((splitlinesKeep content).take i) :=
      checkAt_some_fst hchk
    have hilen : i < (splitlinesKeep content).length := List.mem_range.mp hi
    cases i with
    | zero => exact Or.inl (by simp [h1, sumLen])
    | succ j =>
      refine Or.inr ?_
      have htake :
          content.take p.1 = ((splitlinesKeep content).take (j + 1)).flatten := by
        conv_lhs => rw [← splitlinesKeep_flatten content]
        rw [h1]
        exact flatten_take_sumLen _ _
      have hj : j < (splitlinesKeep content).length := Nat.lt_of_succ_lt hilen
      have hget : (splitlinesKeep content)[j]? =
          some ((splitlinesKeep content)[j]) := List.getElem?_eq_getElem hj
      have hnl : ((splitlinesKeep content)[j]).getLast? = some '\n' :=
        splitAux_nonlast_nl content [] j _ hget (by simpa using hilen)
      rw [htake, List.take_succ, hget]
      simp only [Option.toList_some, List.flatten_append, List.flatten_cons,
        List.flatten_nil, List.append_nil]
      rw [List.getLast?_append, hnl]
      rfl

end LineStartProofs

section IndentProofs

theorem splitNLAux_ne_nil (s : Str) : ∀ acc, splitNLAux s acc ≠ [] := by
  induction s with
  | nil => intro acc; simp [splitNLAux]
  | cons c rest ih =>
    intro acc
    by_cases h : c = '\n' <;> simp [splitNLAux, h, ih]

theorem joinNL_splitNLAux (s : Str) : ∀ acc,
    joinNL (splitNLAux s acc) = acc.reverse ++ s := by
  induction s with
  | nil => intro acc; simp [splitNLAux, joinNL]
  | cons c rest ih =>
    intro acc
    by_cases h : c = '\n'
    · subst h
      rw [show splitNLAux ('\n' :: rest) acc = acc.reverse :: splitNLAux rest []
          from by simp [splitNLAux]]
      rcases hL : splitNLAux rest [] with _ | ⟨h0, t⟩
      · exact absurd hL (splitNLAux_ne_nil rest [])
      · rw [joinNL]
        rw [← hL, ih []]
        simp
    · rw [show splitNLAux (c :: rest) acc = splitNLAux rest (c :: acc) from by
          simp [splitNLAux, h]]
      rw [ih (c :: acc)]
      simp

theorem joinNL_splitNL (s : Str) : joinNL (splitNL s) = s := by
  have := joinNL_splitNLAux s []
  simpa [splitNL] using this

theorem splitNL_ne_nil (s : Str) : splitNL s ≠ [] := splitNLAux_ne_nil s []

theorem take_min_length (w : Str) (n : Nat) : w.take (min n w.length) = w.take n := by
  rcases Nat.le_total n w.length with h | h
  · rw [Nat.min_eq_left h]
  · rw [Nat.min_eq_right h, List.take_length, List.take_of_length_le h]

theorem pyEndClamp_natCast (len n : Nat) : pyEndClamp len (n : Int) = min n len := by
  unfold pyEndClamp
  rw [if_neg (by exact not_lt.mpr (Int.natCast_nonneg n))]
  rw [Int.toNat_natCast]

/-- At a line start, the mutator's backwards `rfind`-based indentation
scan sees an empty segment: the detected indentation is empty. -/
theorem indent_slice_lineStart (w : Str) (n : Nat) (h : isLineStart w n) :
    sliceN w
      (match rfindNLIn w (n : Int) with
       | none => 0
       | some nn => nn + 1) n = [] := by
  rcases h with h0 | hlast
  · subst h0
    rw [show rfindNLIn w ((0 : Nat) : Int) = none from by
        simp [rfindNLIn, pyEndClamp]]
    simp [sliceN]
  · rcases List.eq_nil_or_concat (w.take n) with hq | ⟨q, b, hq⟩
    · rw [hq] at hlast; simp at hlast
    · rw [List.concat_eq_append] at hq
      have hb : b = '\n' := by
        rw [hq, List.getLast?_concat] at hlast
        exact (Option.some.injEq _ _).mp hlast
      subst hb
      have heN : min n w.length = (w.take n).length := (List.length_take n w).symm
      have hpos : 1 ≤ min n w.length := by
        rw [heN, hq]
        simp
      have hfind : rfindNLIn w (n : Int) = some (min n w.length - 1) := by
        unfold rfindNLIn
        rw [pyEndClamp_natCast, take_min_length, hq]
        rw [show (q ++ ['\n']).reverse = '\n' :: q.reverse from by simp]
        rw [List.findIdx?_cons]
        simp
      rw [hfind]
      dsimp only
      rw [show min n w.length - 1 + 1 = min n w.length from by omega]
      unfold sliceN
      refine List.drop_eq_nil_of_le ?_
      rw [List.length_take]

/-- At a line start the spec's "indentation immediately preceding the
start" is empty as well. -/
theorem precedingIndent_lineStart (w : Str) (n : Nat) (h : isLineStart w n) :
    precedingIndent w n = [] := by
  rcases h with h0 | hlast
  · subst h0; simp [precedingIndent]
  · rcases List.eq_nil_or_concat (w.take n) with hq | ⟨q, b, hq⟩
    · rw [hq] at hlast; simp at hlast
    · rw [List.concat_eq_append] at hq
      have hb : b = '\n' := by
        rw [hq, List.getLast?_concat] at hlast
        exact (Option.some.injEq _ _).mp hlast
      subst hb
      unfold precedingIndent
      rw [hq, show (q ++ ['\n']).reverse = '\n' :: q.reverse from by simp]
      rw [List.takeWhile_cons]
      simp

/-- At a line start, the spliced text is the content with the (empty)
detected indentation distributed over its lines — i.e. the claim's
`specSplice` — followed by the trailing LF the newline discipline may
append. -/
theorem indentedContent_lineStart (w : Str) (s e : Nat) (content : Str)
    (act : Action) (hls : isLineStart w s) (hc : content ≠ [])
    (ha : act = .REPLACE ∨ act = .INSERT_AFTER ∨ act = .INSERT_BEFORE) :
    indentedContent w s e content act =
      specSplice w s content ++
        (if (act = .INSERT_AFTER ∨ act = .INSERT_BEFORE ∨
              (act = .REPLACE ∧ (s < e ∧ w.get? (e - 1) = some '\n'))) ∧
            content.getLast? ≠ some '\n' then ['\n'] else []) := by
  have hspec : specSplice w s content = content := by
    unfold specSplice
    rcases hsp : splitNL content with _ | ⟨h0, t⟩
    · exact absurd hsp (splitNL_ne_nil content)
    · rw [precedingIndent_lineStart w s hls]
      simp only [List.nil_append]
      rw [show (h0 :: t.map fun l => l) = h0 :: t from by simp]
      rw [← hsp, joinNL_splitNL]
  rw [hspec]
  unfold indentedContent
  rw [if_pos ⟨ha, hc⟩]
  dsimp only
  rw [indent_slice_lineStart w s hls]
  simp only [List.takeWhile_nil, List.nil_append]
  rw [show ((splitNL content).map fun l => l) = splitNL content from by simp]
  rw [joinNL_splitNL]
  split
  · rfl
  · simp

end IndentProofs

section LocatorProofs

/-- Full characterisation of the locator when no anchor is given: one
occurrence is taken as is; with several occurrences the cursor filter
(applied for every cursor value, 0 included) keeps the first occurrence
starting at or after the cursor, and only when no occurrence does is
AMBIGUOUS_MATCH returned. -/
theorem find_target_noanchor (content snippet : Str) (cursor : Nat) :
    find_target_in_content content none snippet cursor =
      match smart_find content snippet with
      | [] => .error .SNIPPET_NOT_FOUND
      | [o] => .ok o
      | o1 :: o2 :: t =>
        match (o1 :: o2 :: t).filter (fun o => cursor ≤ o.1) with
        | [] => .error .AMBIGUOUS_MATCH
        | f :: _ => .ok f := by
  unfold find_target_in_content
  rw [if_neg (by simp [truthyOpt])]
  unfold snippetPhase
  dsimp only
  rcases hocc : smart_find content snippet with _ | ⟨o1, t1⟩
  · simp
  · rcases t1 with _ | ⟨o2, t2⟩
    · simp
    · simp only [List.length_cons]
      rw [if_pos (by omega)]
      simp only [Nat.add_zero]
      rcases hf : (o1 :: o2 :: t2).filter (fun o => decide (cursor ≤ o.1)) with
        _ | ⟨f, tf⟩ <;> simp [hf]

/-- The commit phase can only fail with FILE_WRITE_ERROR. -/
theorem commit_error_code (writeOk : String → Bool) :
    ∀ (plan : List (String × Str)) (fs fs' : FS) (e : ErrCode),
      commit writeOk fs plan = (some e, fs') → e = .FILE_WRITE_ERROR := by
  intro plan
  induction plan with
  | nil => intro fs fs' e h; simp [commit] at h
  | cons entry rest ih =>
    intro fs fs' e h
    rw [commit] at h
    by_cases hw : writeOk entry.1
    · rw [if_pos hw] at h
      exact ih _ _ _ h
    · rw [if_neg hw] at h
      injection h with h1 h2
      injection h1 with h3
      exact h3.symm

/-- CREATE_FILE on a missing file sets the buffer to the normalised
content and breaks. -/
theorem processMod_cf_noFile (fs : FS) (path : String) (working : Str)
    (cursor : Nat) (c : Str) (h : fs.lookup path = none) :
    processMod fs path working cursor (cfMod c) = .stop (normalizeNewlines c) := by
  unfold processMod cfMod
  dsimp only [Option.getD_some]
  rw [if_pos rfl, h]

/-- CREATE_FILE on an existing file with (normalised-)matching content is
an idempotent skip: the buffer is untouched and the loop breaks. -/
theorem processMod_cf_matching (fs : FS) (path : String) (working : Str)
    (cursor : Nat) (c raw : Str) (h : fs.lookup path = some raw)
    (hm : normalize_block (normalizeNewlines raw) = normalize_block c) :
    processMod fs path working cursor (cfMod c) = .stop working := by
  unfold processMod cfMod
  dsimp only [Option.getD_some]
  rw [if_pos rfl, h]
  dsimp only
  rw [if_pos hm]

/-- CREATE_FILE on an existing whitespace-only file with different
content overwrites it. -/
theorem processMod_cf_overwriteEmpty (fs : FS) (path : String) (working : Str)
    (cursor : Nat) (c raw : Str) (h : fs.lookup path = some raw)
    (hm : normalize_block (normalizeNewlines raw) ≠ normalize_block c)
    (hb : isBlank (normalizeNewlines raw)) :
    processMod fs path working cursor (cfMod c) = .stop (normalizeNewlines c) := by
  unfold processMod cfMod
  dsimp only [Option.getD_some]
  rw [if_pos rfl, h]
  dsimp only
  rw [if_neg hm, if_pos hb]

/-- CREATE_FILE on an existing non-blank file with different content
fails with FILE_EXISTS. -/
theorem processMod_cf_exists (fs : FS) (path : String) (working : Str)
    (cursor : Nat) (c raw : Str) (h : fs.lookup path = some raw)
    (hm : normalize_block (normalizeNewlines raw) ≠ normalize_block c)
    (hb : ¬ isBlank (normalizeNewlines raw)) :
    processMod fs path working cursor (cfMod c) = .err .FILE_EXISTS := by
  unfold processMod cfMod
  dsimp only [Option.getD_some]
  rw [if_pos rfl, h]
  dsimp only
  rw [if_neg hm, if_neg hb]

theorem normalizeNewlines_noCR (s : Str) : '\r' ∉ normalizeNewlines s := by
  induction s using normalizeNewlines.induct with
  | case1 => simp [normalizeNewlines]
  | case2 => simp [normalizeNewlines]
  | case3 c hc =>
    simp only [normalizeNewlines, if_neg hc]
    intro hm
    exact hc (List.mem_singleton.mp hm).symm
  | case4 rest ih =>
    intro hm
    rw [show normalizeNewlines ('\r' :: '\n' :: rest) = '\n' :: normalizeNewlines rest
        from by simp [normalizeNewlines]] at hm
    rcases List.mem_cons.mp hm with hm | hm
    · exact absurd hm (by decide)
    · exact ih hm
  | case5 c2 rest h2 ih =>
    intro hm
    rw [show normalizeNewlines ('\r' :: c2 :: rest) =
          '\n' :: normalizeNewlines (c2 :: rest) from by
        simp [normalizeNewlines, h2]] at hm
    rcases List.mem_cons.mp hm with hm | hm
    · exact absurd hm (by decide)
    · exact ih hm
  | case6 c1 c2 rest h1 ih =>
    intro hm
    rw [show normalizeNewlines (c1 :: c2 :: rest) =
          c1 :: normalizeNewlines (c2 :: rest) from by
        simp [normalizeNewlines, h1]] at hm
    rcases List.mem_cons.mp hm with hm | hm
    · exact h1 hm.symm
    · exact ih hm

theorem normalizeNewlines_of_noCR (s : Str) (h : '\r' ∉ s) :
    normalizeNewlines s = s := by
  induction s using normalizeNewlines.induct with
  | case1 => rfl
  | case2 => exact absurd (by simp) h
  | case3 c hc => simp [normalizeNewlines, hc]
  | case4 rest ih => exact absurd (by simp) h
  | case5 c2 rest h2 ih => exact absurd (by simp) h
  | case6 c1 c2 rest h1 ih =>
    have hr : '\r' ∉ c2 :: rest := fun hh => h (List.mem_cons_of_mem _ hh)
    rw [show normalizeNewlines (c1 :: c2 :: rest) =
          c1 :: normalizeNewlines (c2 :: rest) from by
        simp [normalizeNewlines, h1]]
    rw [ih hr]

theorem normalizeNewlines_idem (s : Str) :
    normalizeNewlines (normalizeNewlines s) = normalizeNewlines s :=
  normalizeNewlines_of_noCR _ (normalizeNewlines_noCR s)

/-- A CREATE_FILE that breaks the loop makes every later modification of
the FileChange vanish from the run. -/
theorem runMods_cf_stop (fs : FS) (path : String) (force : Bool)
    (working : Str) (cursor : Nat) (m : Modification) (w : Str)
    (rest : List Modification) (h : processMod fs path working cursor m = .stop w) :
    runMods fs path force working cursor (m :: rest) = .ok (w, false, []) := by
  rw [runMods, h]

end LocatorProofs

section DriverProofs

/-- Idempotent CREATE_FILE on an existing file produces no write-plan
entry, provided the translated original is stable under denormalisation
(no trailing whitespace; line ends that round-trip). -/
theorem processChange_cf_noWrite (fs : FS) (path : String) (c raw : Str)
    (h : fs.lookup path = some raw)
    (hm : normalize_block (normalizeNewlines raw) = normalize_block c)
    (hst : joinWith (detect_line_endings raw)
        ((splitNL (normalizeNewlines raw)).map rstripSpTab) = normalizeNewlines raw) :
    processChange fs false
      { file_path := some path, newline := none, modifications := [cfMod c] } =
      .ok (none, false) := by
  unfold processChange
  dsimp only
  rw [show newlineCharOf fs path none = detect_line_endings raw from by
      unfold newlineCharOf; rw [h]]
  rw [h]
  dsimp only
  rw [runMods_cf_stop fs path false (normalizeNewlines (normalizeNewlines raw)) 0
      (cfMod c) (normalizeNewlines (normalizeNewlines raw)) []
      (processMod_cf_matching fs path _ 0 c raw h hm)]
  dsimp only
  rw [normalizeNewlines_idem raw, hst]
  simp

end DriverProofs

section HeaderProofs

theorem matchHeader_id_chars (line id : Str) (h : matchHeader line = some id) :
    id.length = 8 ∧ id.all isIdChar = true := by
  unfold matchHeader at h
  dsimp only at h
  by_cases h1 : (line.take 8).length = 8 ∧ (line.take 8).all isIdChar
  · rw [if_pos h1] at h
    split at h
    · split at h
      · injection h with h2
        subst h2
        exact h1
      · exact absurd h (by simp)
    · exact absurd h (by simp)
  · rw [if_neg h1] at h
    exact absurd h (by simp)

/-- The header scan errs (with INVALID_PATCH_FILE) exactly when the first
non-blank, non-comment line exists and fails the header pattern, and
yields an id exactly when that line matches. -/
theorem parse_header_spec (lines : List Str) :
    (parse_ap3_header lines = .err .INVALID_PATCH_FILE ↔
      ∃ s, firstSignificant lines = some s ∧ matchHeader s = none) ∧
    (∀ id, parse_ap3_header lines = .okId id ↔
      ∃ s, firstSignificant lines = some s ∧ matchHeader s = some id) := by
  induction lines with
  | nil =>
    constructor
    · simp [parse_ap3_header, firstSignificant]
    · intro id; simp [parse_ap3_header, firstSignificant]
  | cons l rest ih =>
    by_cases hskip : (strip l).isEmpty || (strip l).head? = some '#'
    · have e1 : parse_ap3_header (l :: rest) = parse_ap3_header rest := by
        rw [parse_ap3_header]
        rw [if_pos hskip]
      have e2 : firstSignificant (l :: rest) = firstSignificant rest := by
        unfold firstSignificant
        rw [List.map_cons, List.find?_cons_of_neg]
        simp [hskip]
      rw [e1, e2]
      exact ih
    · have e1 : parse_ap3_header (l :: rest) =
          (match matchHeader (strip l) with
           | some id => HeaderOutcome.okId id
           | none => HeaderOutcome.err .INVALID_PATCH_FILE) := by
        rw [parse_ap3_header]
        rw [if_neg hskip]
      have e2 : firstSignificant (l :: rest) = some (strip l) := by
        unfold firstSignificant
        rw [List.map_cons, List.find?_cons_of_pos]
        simp [hskip]
      rw [e1, e2]
      cases hmh : matchHeader (strip l) with
      | none =>
        constructor
        · simp [hmh]
        · intro id; simp [hmh]
      | some id0 =>
        constructor
        · simp [hmh]
        · intro id; simp [hmh]

end HeaderProofs

section Claims

/-- C1 (amended): for every invocation of apply_patch without force, if
the returned status is FAILED with any error code other than
FILE_WRITE_ERROR, the failure occurred before the commit phase and no
target file is written: every file's content after the call equals its
content before.  A FILE_WRITE_ERROR raised while committing a plan of
several files, however, leaves the files written before the failing one
in their new state (see the counterexample). -/
theorem c1_amended (data : PatchData) (fs : FS) (dryRun : Bool)
    (writeOk : String → Bool) (e : ErrCode)
    (hfail : (apply_patch data fs dryRun false writeOk).1 = .FAILED e)
    (hnw : e ≠ .FILE_WRITE_ERROR) :
    (apply_patch data fs dryRun false writeOk).2 = fs := by
  unfold apply_patch at hfail ⊢
  cases hbp : buildPlan fs false data.changes with
  | error e' => rfl
  | ok pr =>
    obtain ⟨plan, failed⟩ := pr
    rw [hbp] at hfail
    dsimp only at hfail ⊢
    by_cases h1 : plan.isEmpty && failed
    · rw [if_pos h1]
    · rw [if_neg h1] at hfail ⊢
      simp only [Bool.false_and, Bool.and_false] at hfail ⊢
      rw [if_neg (by simp)] at hfail ⊢
      by_cases h3 : dryRun
      · rw [if_pos h3]
      · rw [if_neg h3] at hfail ⊢
        rcases hcm : commit writeOk fs plan with ⟨oe, fs'⟩
        cases oe with
        | none => rw [hcm] at hfail; exact absurd hfail (by simp)
        | some ec =>
          have hec : ec = .FILE_WRITE_ERROR :=
            commit_error_code writeOk plan fs fs' ec hcm
          rw [hcm] at hfail
          dsimp only at hfail
          injection hfail with h4
          exact absurd (h4 ▸ hec) hnw

/-- C1 witness: a SNIPPET_NOT_FOUND failure leaves the file system
untouched. -/
theorem c1_witness :
    (apply_patch (onePatch "t.txt"
        { action := some .REPLACE, snippet := some "zzz".data })
      [("t.txt", "a\n".data)] false false allWritesOk).1 =
        .FAILED .SNIPPET_NOT_FOUND ∧
    (ErrCode.SNIPPET_NOT_FOUND ≠ ErrCode.FILE_WRITE_ERROR) ∧
    (apply_patch (onePatch "t.txt"
        { action := some .REPLACE, snippet := some "zzz".data })
      [("t.txt", "a\n".data)] false false allWritesOk).2 =
      [("t.txt", "a\n".data)] :=
  ⟨by decide, by decide,
   c1_amended _ _ false allWritesOk .SNIPPET_NOT_FOUND (by decide) (by decide)⟩

/-- C1 counterexample: without force, a patch touching two files whose
second write is refused by the OS returns FAILED (FILE_WRITE_ERROR)
while the first target file has already been rewritten — its on-disk
content no longer equals its pre-invocation content. -/
theorem c1_counterexample :
    apply_patch
      { changes :=
          [{ file_path := some "a.txt",
             modifications := [{ action := some .REPLACE,
                                 snippet := some "x".data,
                                 content := some "X".data }] },
           { file_path := some "b.txt",
             modifications := [{ action := some .REPLACE,
                                 snippet := some "y".data,
                                 content := some "Y".data }] }] }
      [("a.txt", "x\n".data), ("b.txt", "y\n".data)] false false
      (fun p => p == "a.txt") =
      (.FAILED .FILE_WRITE_ERROR,
        [("a.txt", "X\n".data), ("b.txt", "y\n".data)]) ∧
    ("X\n".data ≠ "x\n".data) := ⟨by decide, by decide⟩

/-- C2 (code bug): a REPLACE with empty content (a deletion) on
"a\nx\n" succeeds, but re-applying the identical patch returns FAILED
(SNIPPET_NOT_FOUND) instead of the claimed idempotent SUCCESS with an
empty write plan: the already-applied rescue tries to locate the empty
replacement content, and smart_find of an empty snippet never matches. -/
theorem c2_bug_eval :
    apply_patch (onePatch "t.txt"
        { action := some .REPLACE, snippet := some "x".data })
      [("t.txt", "a\nx\n".data)] false false allWritesOk =
      (.SUCCESS, [("t.txt", "a\n".data)]) ∧
    apply_patch (onePatch "t.txt"
        { action := some .REPLACE, snippet := some "x".data })
      [("t.txt", "a\n".data)] false false allWritesOk =
      (.FAILED .SNIPPET_NOT_FOUND, [("t.txt", "a\n".data)]) :=
  ⟨by decide, by decide⟩

/-- C3 (amended): in the snippet phase with no anchor the cursor filter
is applied whenever more than one occurrence exists — for every cursor
value, 0 included — keeping the first occurrence whose absolute start is
at or after the cursor; AMBIGUOUS_MATCH is returned only when several
occurrences exist and all of them start before the cursor.  In
particular, for content "x=1\nx=1\n" a first REPLACE of snippet "x=1"
with cursor 0 resolves to the first occurrence (0, 4) and succeeds. -/
theorem c3_amended :
    (∀ (content snippet : Str) (cursor : Nat),
      find_target_in_content content none snippet cursor =
        match smart_find content snippet with
        | [] => .error .SNIPPET_NOT_FOUND
        | [o] => .ok o
        | o1 :: o2 :: t =>
          match (o1 :: o2 :: t).filter (fun o => cursor ≤ o.1) with
          | [] => .error .AMBIGUOUS_MATCH
          | f :: _ => .ok f) ∧
    find_target_in_content "x=1\nx=1\n".data none "x=1".data 0 = .ok (0, 4) :=
  ⟨find_target_noanchor, by decide⟩

/-- C3 counterexample: for file "x=1\nx=1\n" and a first REPLACE of
snippet "x=1" with no anchor, apply_patch does not fail with
AMBIGUOUS_MATCH — it succeeds and rewrites the first occurrence. -/
theorem c3_counterexample :
    (apply_patch (onePatch "f.txt"
        { action := some .REPLACE, snippet := some "x=1".data,
          content := some "x=2".data })
      [("f.txt", "x=1\nx=1\n".data)] false false allWritesOk).1 ≠
      .FAILED .AMBIGUOUS_MATCH ∧
    apply_patch (onePatch "f.txt"
        { action := some .REPLACE, snippet := some "x=1".data,
          content := some "x=2".data })
      [("f.txt", "x=1\nx=1\n".data)] false false allWritesOk =
      (.SUCCESS, [("f.txt", "x=2\nx=1\n".data)]) := ⟨by decide, by decide⟩

/-- C4 (amended): the cursor filter only guarantees forward resolution
when the snippet phase finds several occurrences and at least one starts
at or after the cursor — then the resolved range is the first such
occurrence, whose start is ≥ cursor; and whenever a processed
modification records a resolved start, the cursor passed to the next
locator call is exactly that start.  A modification whose snippet occurs
exactly once may still resolve before the cursor, so the sequence of
resolved starts within one FileChange need not be non-decreasing. -/
theorem c4_amended :
    (∀ (content snippet : Str) (cursor : Nat) (f : Nat × Nat)
       (tf : List (Nat × Nat)),
      2 ≤ (smart_find content snippet).length →
      (smart_find content snippet).filter (fun o => cursor ≤ o.1) = f :: tf →
      find_target_in_content content none snippet cursor = .ok f ∧ cursor ≤ f.1) ∧
    (∀ (fs : FS) (path : String) (working : Str) (cursor : Nat)
       (m : Modification) (w : Str) (c : Nat) (r : Option Nat),
      processMod fs path working cursor m = .next w c r →
      r = none ∨ r = some c) := by
  constructor
  · intro content snippet cursor f tf hlen hf
    rw [find_target_noanchor]
    rcases hocc : smart_find content snippet with _ | ⟨o1, t1⟩
    · rw [hocc] at hlen; simp at hlen
    · rcases t1 with _ | ⟨o2, t2⟩
      · rw [hocc] at hlen; simp at hlen
      · rw [hocc] at hf
        dsimp only
        rw [hf]
        refine ⟨rfl, ?_⟩
        have hmem : f ∈ (o1 :: o2 :: t2).filter (fun o => decide (cursor ≤ o.1)) := by
          rw [hf]; exact List.mem_cons_self _ _
        exact of_decide_eq_true (List.mem_filter.mp hmem).2
  · intro fs path working cursor m w c r h
    unfold processMod at h
    rcases hact : m.action with _ | act
    · rw [hact] at h; simp at h
    · rw [hact] at h
      dsimp only at h
      by_cases hcf : act = .CREATE_FILE
      · rw [if_pos hcf] at h
        split at h
        · split at h
          · exact absurd h (by simp)
          · split at h
            · exact absurd h (by simp)
            · exact absurd h (by simp)
        · exact absurd h (by simp)
      · rw [if_neg hcf] at h
        cases hloc : locateForMod working cursor act m with
        | hardErr e => rw [hloc] at h; simp at h
        | locErr e =>
          rw [hloc] at h
          dsimp only at h
          split at h
          · injection h with h1 h2 h3
            exact Or.inl h3.symm
          · split at h
            · injection h with h1 h2 h3
              exact Or.inl h3.symm
            · exact absurd h (by simp)
        | located t =>
          obtain ⟨s0, e0⟩ := t
          rw [hloc] at h
          dsimp only at h
          split at h
          · injection h with h1 h2 h3
            exact Or.inl h3.symm
          · split at h
            · injection h with h1 h2 h3
              exact Or.inl h3.symm
            · split at h
              · injection h with h1 h2 h3
                exact Or.inl h3.symm
              · split at h
                · injection h with h1 h2 h3
                  rw [← h3, ← h2]
                  exact Or.inr rfl
                · injection h with h1 h2 h3
                  rw [← h3, ← h2]
                  exact Or.inr rfl

/-- C4 counterexample: within one FileChange, a first REPLACE resolves
at start 2 and a second, uniquely matching REPLACE resolves at start 0
(< the cursor 2): both succeed and the recorded resolved starts [2, 0]
are not non-decreasing. -/
theorem c4_counterexample :
    runMods [("f.txt", "a\nb\n".data)] "f.txt" false "a\nb\n".data 0
      [{ action := some .REPLACE, snippet := some "b".data,
         content := some "B".data },
       { action := some .REPLACE, snippet := some "a".data,
         content := some "A".data }] =
      .ok ("A\nB\n".data, false, [2, 0]) ∧
    ¬ List.Chain' (fun a b => a ≤ b) [2, 0] :=
  ⟨by decide, fun h => absurd (List.chain'_cons.mp h).1 (by omega)⟩

/-- C4 witness: with two occurrences of "x" and cursor 2, the filter
keeps the second occurrence and the locator resolves to it, at or after
the cursor. -/
theorem c4_witness :
    (2 ≤ (smart_find "x\nx\n".data "x".data).length) ∧
    ((smart_find "x\nx\n".data "x".data).filter (fun o => 2 ≤ o.1) =
      [(2, 4)]) ∧
    (find_target_in_content "x\nx\n".data none "x".data 2 = .ok (2, 4) ∧
      2 ≤ (2, 4).1) :=
  ⟨by decide, by decide,
   c4_amended.1 "x\nx\n".data "x".data 2 (2, 4) [] (by decide) (by decide)⟩

/-- C5 (amended): every range resolved by the matcher starts at the
beginning of a line, where the detected indentation (the run of space/tab
immediately preceding the start on its line) is empty; the text spliced
into the working buffer for a REPLACE / INSERT_* with non-empty content
is the content with that indentation prepended to every line except the
first, followed by an appended LF when the action is an insert — or a
REPLACE whose replaced range ends with LF — and the content does not
already end with LF. -/
theorem c5_amended :
    (∀ (content snippet : Str) (p : Nat × Nat),
      p ∈ smart_find content snippet → isLineStart content p.1) ∧
    (∀ (w : Str) (s e : Nat) (content : Str) (act : Action),
      isLineStart w s → content ≠ [] →
      (act = .REPLACE ∨ act = .INSERT_AFTER ∨ act = .INSERT_BEFORE) →
      indentedContent w s e content act =
        specSplice w s content ++
          (if (act = .INSERT_AFTER ∨ act = .INSERT_BEFORE ∨
                (act = .REPLACE ∧ (s < e ∧ w.get? (e - 1) = some '\n'))) ∧
              content.getLast? ≠ some '\n' then ['\n'] else [])) :=
  ⟨smart_find_lineStart, indentedContent_lineStart⟩

/-- C5 counterexample: in the S1 scenario the text spliced for REPLACE
snippet "beta" content "BETA" is "BETA\n", not the bare claimed splice
"BETA": replacing the range with the claimed splice would corrupt the
buffer, while the engine actually produces "alpha\nBETA\ngamma\n". -/
theorem c5_counterexample :
    apply_patch (onePatch "a.txt"
        { action := some .REPLACE, snippet := some "beta".data,
          content := some "BETA".data })
      [("a.txt", "alpha\nbeta\ngamma\n".data)] false false allWritesOk =
      (.SUCCESS, [("a.txt", "alpha\nBETA\ngamma\n".data)]) ∧
    specSplice "alpha\nbeta\ngamma\n".data 6 "BETA".data = "BETA".data ∧
    "alpha\nBETA\ngamma\n".data ≠
      "alpha\nbeta\ngamma\n".data.take 6 ++
        specSplice "alpha\nbeta\ngamma\n".data 6 "BETA".data ++
        "alpha\nbeta\ngamma\n".data.drop 11 :=
  ⟨by decide, by decide, by decide⟩

/-- C5 witness: a concrete REPLACE at a line start whose replaced range
ends with LF receives the appended trailing LF. -/
theorem c5_witness :
    isLineStart "x\n".data 0 ∧ ("y".data ≠ ([] : Str)) ∧
    indentedContent "x\n".data 0 2 "y".data .REPLACE =
      specSplice "x\n".data 0 "y".data ++
        (if (Action.REPLACE = .INSERT_AFTER ∨ Action.REPLACE = .INSERT_BEFORE ∨
              (Action.REPLACE = .REPLACE ∧
                (0 < 2 ∧ "x\n".data.get? (2 - 1) = some '\n'))) ∧
            "y".data.getLast? ≠ some '\n' then ['\n'] else []) :=
  ⟨Or.inl rfl, by decide,
   c5_amended.2 "x\n".data 0 2 "y".data .REPLACE (Or.inl rfl) (by decide)
     (Or.inl rfl)⟩

/-- C6: for every content string and non-empty snippet, smart_find
returns exactly the ranges described by the spec — matches begin at a
non-blank line whose stripped text ends with the stripped first snippet
line, subsequent non-blank snippet lines compare equal after stripping
with blank content lines skipped, the range runs from the offset of the
starting line to just past the last non-blank line consumed, and at most
one match is reported per starting line, in increasing order. -/
theorem c6_matcher_spec (content snippet : Str) (_h : snippet ≠ []) :
    smart_find content snippet = specMatches content snippet :=
  smart_find_eq_specMatches content snippet

/-- C6 witness. -/
theorem c6_witness :
    ("x=1".data ≠ ([] : Str)) ∧
    smart_find "x=1\nx=1\n".data "x=1".data =
      specMatches "x=1\nx=1\n".data "x=1".data :=
  ⟨by decide, c6_matcher_spec "x=1\nx=1\n".data "x=1".data (by decide)⟩

/-- C7: for a REPLACE or DELETE carrying both snippet and end_snippet,
when neither end_snippet heuristic fires, the locator resolves the
snippet to (s1, e1) and then runs smart_find for the end snippet on the
buffer from e1 on: no occurrence gives END_SNIPPET_NOT_FOUND, otherwise
the affected range is (s1, e1 + end of the first occurrence).
Concretely, the S7 range replace turns the file into "# NEW\n". -/
theorem c7_range_locator :
    (∀ (working : Str) (cursor : Nat) (act : Action) (mod : Modification)
       (sv es : Str) (s1 e1 : Nat),
      mod.snippet = some sv → sv ≠ [] →
      mod.end_snippet = some es → es ≠ [] →
      normalize_block es ≠ normalize_block ((mod.content).getD []) →
      (strip es).isSuffixOf (strip sv) = false →
      (act = .REPLACE ∨ act = .DELETE) →
      find_target_in_content working mod.anchor sv cursor = .ok (s1, e1) →
      locateForMod working cursor act mod =
        match smart_find (working.drop e1) es with
        | [] => .locErr .END_SNIPPET_NOT_FOUND
        | (_, er) :: _ => .located (s1, e1 + er)) ∧
    apply_patch (onePatch "r.txt"
        { action := some .REPLACE, snippet := some "# START".data,
          end_snippet := some "# END".data, content := some "# NEW".data })
      [("r.txt", "# START\nold1\nold2\n# END\n".data)] false false allWritesOk =
      (.SUCCESS, [("r.txt", "# NEW\n".data)]) := by
  constructor
  · intro working cursor act mod sv es s1 e1 hsv hsvne hes hesne h1 h2 hact hft
    unfold locateForMod
    rw [hsv, hes]
    dsimp only [Option.getD_some]
    rw [if_neg (fun hc => h1 hc.2.2.2)]
    dsimp only
    rw [if_neg (fun hc => by
      have h3 := hc.2.2
      rw [h2] at h3
      exact Bool.noConfusion h3)]
    dsimp only
    rw [if_pos hact, hft]
  · decide

/-- C7 witness: the S7 range locate, both through the locator and with a
missing end snippet. -/
theorem c7_witness :
    (find_target_in_content "# START\nold1\nold2\n# END\n".data none
        "# START".data 0 = .ok (0, 8)) ∧
    locateForMod "# START\nold1\nold2\n# END\n".data 0 .REPLACE
        { action := some .REPLACE, snippet := some "# START".data,
          end_snippet := some "# END".data, content := some "# NEW".data } =
      (match smart_find ("# START\nold1\nold2\n# END\n".data.drop 8)
          "# END".data with
       | [] => LocOut.locErr .END_SNIPPET_NOT_FOUND
       | (_, er) :: _ => LocOut.located (0, 8 + er)) :=
  ⟨by decide,
   c7_range_locator.1 "# START\nold1\nold2\n# END\n".data 0 .REPLACE
     { action := some .REPLACE, snippet := some "# START".data,
       end_snippet := some "# END".data, content := some "# NEW".data }
     "# START".data "# END".data 0 8 rfl (by decide) rfl (by decide)
     (by decide) (by decide) (Or.inl rfl) (by decide)⟩

/-- C8 (amended): CREATE_FILE sets the working buffer to the normalised
content when the target is missing.  When the target exists, its content
is compared with the new content under the code's normalisation
(`normalize_block`): the whole text stripped, then each line stripped,
with interior blank lines kept — not the claim's blank-line-dropping
comparison, under which contents differing only by interior blank lines
would wrongly count as equal (see the counterexample).  If equal under
the code's comparison, the modification is an idempotent skip keeping
the buffer, and produces no write provided the translated original is
stable under denormalisation (LF line endings, no trailing whitespace) —
without that proviso the skipped file can still be rewritten.  Otherwise
an existing whitespace-only target is overwritten, and any other
existing target makes the run fail with FILE_EXISTS. -/
theorem c8_amended :
    (∀ (fs : FS) (path : String) (working : Str) (cursor : Nat) (c : Str),
      fs.lookup path = none →
      processMod fs path working cursor (cfMod c) = .stop (normalizeNewlines c)) ∧
    (∀ (fs : FS) (path : String) (working : Str) (cursor : Nat) (c raw : Str),
      fs.lookup path = some raw →
      normalize_block (normalizeNewlines raw) = normalize_block c →
      processMod fs path working cursor (cfMod c) = .stop working) ∧
    (∀ (fs : FS) (path : String) (working : Str) (cursor : Nat) (c raw : Str),
      fs.lookup path = some raw →
      normalize_block (normalizeNewlines raw) ≠ normalize_block c →
      isBlank (normalizeNewlines raw) →
      processMod fs path working cursor (cfMod c) = .stop (normalizeNewlines c)) ∧
    (∀ (fs : FS) (path : String) (working : Str) (cursor : Nat) (c raw : Str),
      fs.lookup path = some raw →
      normalize_block (normalizeNewlines raw) ≠ normalize_block c →
      ¬ isBlank (normalizeNewlines raw) →
      processMod fs path working cursor (cfMod c) = .err .FILE_EXISTS) ∧
    (∀ (fs : FS) (path : String) (c raw : Str),
      fs.lookup path = some raw →
      normalize_block (normalizeNewlines raw) = normalize_block c →
      joinWith (detect_line_endings raw)
          ((splitNL (normalizeNewlines raw)).map rstripSpTab) =
        normalizeNewlines raw →
      processChange fs false
        { file_path := some path, newline := none,
          modifications := [cfMod c] } = .ok (none, false)) :=
  ⟨processMod_cf_noFile, processMod_cf_matching, processMod_cf_overwriteEmpty,
   processMod_cf_exists, processChange_cf_noWrite⟩

/-- C8 counterexample, two parts.  First: the claim's comparison drops
blank lines, so for existing file "a\n\nb\n" and CREATE_FILE content
"a\nb" it predicts an idempotent no-op success — but the engine keeps
interior blank lines in its comparison, finds the contents different and
non-blank, and fails with FILE_EXISTS, leaving the file unchanged.
Second: an idempotent CREATE_FILE (content "a", existing file "a \n") is
claimed to be a no-op with no write, but the engine rewrites the file
and even changes its bytes (the denormalisation strips the trailing
space). -/
theorem c8_counterexample :
    (specNormalize (normalizeNewlines "a\n\nb\n".data) =
        specNormalize "a\nb".data ∧
      apply_patch (onePatch "t.txt" (cfMod "a\nb".data))
        [("t.txt", "a\n\nb\n".data)] false false allWritesOk =
        (.FAILED .FILE_EXISTS, [("t.txt", "a\n\nb\n".data)])) ∧
    (apply_patch (onePatch "t.txt" (cfMod "a".data))
        [("t.txt", "a \n".data)] false false allWritesOk =
        (.SUCCESS, [("t.txt", "a\n".data)]) ∧
      ("a\n".data ≠ "a \n".data)) :=
  ⟨⟨by decide, by decide⟩, ⟨by decide, by decide⟩⟩

/-- C8 witness: concrete instances of the four CREATE_FILE cases and of
the no-write case. -/
theorem c8_witness :
    (([] : FS).lookup "p" = none ∧
      processMod [] "p" [] 0 (cfMod "a".data) =
        .stop (normalizeNewlines "a".data)) ∧
    (processMod [("p", "a\n".data)] "p" "a\n".data 0 (cfMod "a".data) =
      .stop "a\n".data) ∧
    (processMod [("p", " \n".data)] "p" " \n".data 0 (cfMod "b".data) =
      .stop (normalizeNewlines "b".data)) ∧
    (processMod [("p", "z\n".data)] "p" "z\n".data 0 (cfMod "b".data) =
      .err .FILE_EXISTS) ∧
    processChange [("p", "a\n".data)] false
      { file_path := some "p", newline := none,
        modifications := [cfMod "a".data] } = .ok (none, false) :=
  ⟨⟨rfl, c8_amended.1 [] "p" [] 0 "a".data rfl⟩,
   c8_amended.2.1 [("p", "a\n".data)] "p" "a\n".data 0 "a".data "a\n".data rfl
     (by decide),
   c8_amended.2.2.1 [("p", " \n".data)] "p" " \n".data 0 "b".data " \n".data rfl
     (by decide) (by decide),
   c8_amended.2.2.2.1 [("p", "z\n".data)] "p" "z\n".data 0 "b".data "z\n".data rfl
     (by decide) (by decide),
   c8_amended.2.2.2.2 [("p", "a\n".data)] "p" "a".data "a\n".data rfl
     (by decide) (by decide)⟩

/-- C9 (amended): the parser accepts a header line only if, after
stripping, it is eight characters drawn from [a-z0-9] (not only hex
digits), then whitespace, "AP", whitespace, "3.0"; and the header scan
raises INVALID_PATCH_FILE exactly when the first non-blank, non-comment
line fails this pattern. -/
theorem c9_amended :
    (∀ (line id : Str), matchHeader line = some id →
      id.length = 8 ∧ id.all isIdChar = true) ∧
    (∀ lines : List Str,
      parse_ap3_header lines = .err .INVALID_PATCH_FILE ↔
        ∃ s, firstSignificant lines = some s ∧ matchHeader s = none) :=
  ⟨matchHeader_id_chars, fun lines => (parse_header_spec lines).1⟩

/-- C9 counterexample: the header "gggggggg AP 3.0" — whose id consists
of letters outside [0-9a-f] — is accepted by the parser, not rejected. -/
theorem c9_counterexample :
    matchHeader "gggggggg AP 3.0".data = some "gggggggg".data ∧
    parse_ap3_header ["# c".data, "gggggggg AP 3.0".data] =
      .okId "gggggggg".data ∧
    ¬ (('0' ≤ 'g' ∧ 'g' ≤ '9') ∨ ('a' ≤ 'g' ∧ 'g' ≤ 'f')) := by
  refine ⟨by decide, by decide, by decide⟩

/-- C9 witness. -/
theorem c9_witness :
    matchHeader "abcd1234 AP 3.0".data = some "abcd1234".data ∧
    ("abcd1234".data.length = 8 ∧ "abcd1234".data.all isIdChar = true) :=
  ⟨by decide,
   c9_amended.1 "abcd1234 AP 3.0".data "abcd1234".data (by decide)⟩

/-- C10: once a CREATE_FILE modification is handled — whether the target
is missing and the buffer becomes the normalised content, or the target
already has matching content and the modification is an idempotent skip —
every later modification in the same FileChange is silently dropped: the
run's result is independent of the remaining modifications, succeeds, and
records no further resolved starts and no failures. -/
theorem c10_create_file_breaks :
    (∀ (fs : FS) (path : String) (force : Bool) (working : Str) (cursor : Nat)
       (c : Str) (rest : List Modification),
      fs.lookup path = none →
      runMods fs path force working cursor (cfMod c :: rest) =
        .ok (normalizeNewlines c, false, [])) ∧
    (∀ (fs : FS) (path : String) (force : Bool) (working : Str) (cursor : Nat)
       (c raw : Str) (rest : List Modification),
      fs.lookup path = some raw →
      normalize_block (normalizeNewlines raw) = normalize_block c →
      runMods fs path force working cursor (cfMod c :: rest) =
        .ok (working, false, [])) :=
  ⟨fun fs path force w cur c rest h =>
     runMods_cf_stop fs path force w cur (cfMod c) _ rest
       (processMod_cf_noFile fs path w cur c h),
   fun fs path force w cur c raw rest h hm =>
     runMods_cf_stop fs path force w cur (cfMod c) _ rest
       (processMod_cf_matching fs path w cur c raw h hm)⟩

/-- C10 witness: a CREATE_FILE skip followed by a DELETE that would
otherwise fail — the DELETE is silently dropped. -/
theorem c10_witness :
    ([("p", "a\n".data)].lookup "p" = some "a\n".data) ∧
    (normalize_block (normalizeNewlines "a\n".data) =
      normalize_block "a".data) ∧
    runMods [("p", "a\n".data)] "p" false "a\n".data 0
      (cfMod "a".data ::
        [{ action := some .DELETE, snippet := some "q".data }]) =
      .ok ("a\n".data, false, []) :=
  ⟨rfl, by decide,
   c10_create_file_breaks.2 [("p", "a\n".data)] "p" false "a\n".data 0
     "a".data "a\n".data [{ action := some .DELETE, snippet := some "q".data }]
     rfl (by decide)⟩

end Claims

end AP
